import Mathlib

/-
Shallow embedding of the upload/storage subsystem of the speak-sample-store
repository (backend/routes/recordings.js together with the multer upload
middleware it imports, whose source is embedded in the same file).

Modelling conventions:
  * Calendar days are indexed by integers; `today` is the current server day.
    The day-file for day `d` is the file `recording_log_<date>.json` of that
    day (`getLogFilePath`).
  * The contents of a ledger day-file are a `DayContent`:
      - `absent`  : the file does not exist (read fails with ENOENT);
      - `ioError` : the file read fails with any other error;
      - `invalid` : the file exists but `JSON.parse` throws on its contents;
      - `valid l` : the file parses as the JSON array of entries `l`.
  * The Recording Store is the list of artifact filenames present in the
    recordings directory.
  * Machinery outside this repository (express routing, multer's multipart
    parsing) is modelled by the flags of `UploadReq`: whether a file part is
    present, whether its MIME type passed `fileFilter`, and whether its size
    stayed within the configured limit.  When a file part is present and both
    checks pass, multer's `diskStorage` engine has already written the
    artifact to the recordings directory by the time the callback inside
    `handleUpload` runs its metadata validation; when `fileFilter` rejects,
    no bytes are written, and on a size-limit error multer removes the file.
-/

/-! ## Data model -/

structure LogEntry where
  recordingId : String
  filename : String
  itemName : String
  durationMs : Int
  deriving DecidableEq, Repr

inductive DayContent where
  | absent
  | ioError
  | invalid
  | valid (entries : List LogEntry)
  deriving DecidableEq, Repr

/-- The entry list the code obtains from a prior day-file: the parsed array
when the read and `JSON.parse` succeed, and the empty array when the file is
absent, the read fails otherwise, or parsing throws (recordings.js lines
24-36: the inner catch leaves `logs = []`). -/
def priorEntries : DayContent → List LogEntry
  | .valid l => l
  | _ => []

/-- Pointwise update of the ledger at one day (a `fs.writeFile` of that
day-file). -/
def updateAt (L : Int → DayContent) (d : Int) (v : DayContent) : Int → DayContent :=
  fun x => if x = d then v else L x

/-- recordings.js `getLogFilePath`: the day-file name for a formatted date. -/
def getLogFilePath (dateStr : String) : String :=
  "./logs" ++ "/" ++ ("recording_log_" ++ dateStr ++ ".json")

/-! ## Daily Log Ledger: append (`writeLogEntry`) -/

/-- recordings.js `writeLogEntry`: read the current day's file (absent,
unreadable or unparseable contents give the empty list), push the new entry,
write the whole array back.  `writeOk` is false when the final `fs.writeFile`
fails; the outer catch swallows that error, so the function never throws
either way. -/
def writeLogEntry (today : Int) (L : Int → DayContent) (e : LogEntry)
    (writeOk : Bool) : Int → DayContent :=
  if writeOk then updateAt L today (.valid (priorEntries (L today) ++ [e])) else L

/-! ## Daily Log Ledger: remove (`removeLogEntry`) -/

/-- The predicate of the `logs.filter` call in `removeLogEntry`
(`log.filename !== filename`), negated: does this entry match the filename? -/
def matchesFilename (fn : String) (e : LogEntry) : Bool := e.filename == fn

/-- The `filteredLogs` computed by `removeLogEntry` for one day-file. -/
def filterOut (fn : String) (l : List LogEntry) : List LogEntry :=
  l.filter (fun e => !(matchesFilename fn e))

/-- Does a day-file contain an entry whose filename field matches? -/
def hasMatch (fn : String) : DayContent → Bool
  | .valid l => l.any (matchesFilename fn)
  | _ => false

/-- The loop body of recordings.js `removeLogEntry`, over the remaining list
of day offsets.  For each offset: read the day-file; when it is readable and
parseable, filter out matching entries, and when the filtered list is
shorter, write it back and break; otherwise (including ENOENT, other read
errors, and parse errors, all swallowed by the inner catch) continue with the
next offset. -/
def removeGo (today : Int) (fn : String) : List Nat → (Int → DayContent) → (Int → DayContent)
  | [], L => L
  | i :: rest, L =>
    match L (today - (i : Int)) with
    | .valid entries =>
      let filtered := filterOut fn entries
      if filtered.length ≠ entries.length
      then updateAt L (today - (i : Int)) (.valid filtered)
      else removeGo today fn rest L
    | _ => removeGo today fn rest L

/-- recordings.js `removeLogEntry`: scan the day-files of today and the six
preceding days, most recent first. -/
def removeLogEntry (today : Int) (fn : String) (L : Int → DayContent) : Int → DayContent :=
  removeGo today fn (List.range 7) L

/-! ## Upload Validator and upload route -/

/-- The metadata object parsed from the `meta` form field.  A field is `none`
when the key is missing from the JSON object. -/
structure UploadMeta where
  itemName : Option String
  timestamp : Option String
  durationMs : Option Int
  deriving DecidableEq, Repr

/-- JavaScript truthiness of a possibly-missing string field: `undefined` and
the empty string are falsy. -/
def truthyStr : Option String → Bool
  | none => false
  | some s => !(s == "")

/-- JavaScript truthiness of a possibly-missing numeric field: `undefined`
and `0` are falsy. -/
def truthyNum : Option Int → Bool
  | none => false
  | some n => !(n == 0)

/-- An inbound upload request, as seen by `handleUpload` after multer has
parsed the multipart body.  `metaRaw` is `none` when `JSON.parse` throws on
the `meta` field; `filename` is the name generated by `storage.filename`. -/
structure UploadReq where
  filePresent : Bool
  mimeOk : Bool
  withinSize : Bool
  metaRaw : Option UploadMeta
  filename : String
  deriving DecidableEq, Repr

/-- Observable outcome of the upload pipeline: HTTP status, the `error` tag
of a failure body, the JSON fields of a success body, and the resulting
Recording Store and ledger states. -/
structure UploadResult where
  status : Nat
  errorTag : Option String
  body : Option (List (String × String))
  store : List String
  ledger : Int → DayContent

/-- Default `MAX_DURATION_SEC * 1000` (upload middleware line 502). -/
def defaultMaxDurationMs : Int := 30 * 1000

/-- The upload pipeline: `handleUpload` (MIME filter, size limit, file
presence, metadata JSON parse, required-field truthiness check, duration
check, in the order the code reaches them) followed by the
`POST /api/upload-recording` handler (ledger append, 201 body).

The artifact write is the one performed by multer's `diskStorage` engine
while parsing the multipart body: it has already happened whenever a file
part is present and the MIME and size checks passed, i.e. before any of the
metadata validation in `handleUpload` runs, and no error path of
`handleUpload` or of the route handler removes the file. -/
def uploadRoute (maxDurationMs : Int) (r : UploadReq) (recordingId : String)
    (today : Int) (store : List String) (L : Int → DayContent) (e : LogEntry)
    (ledgerWriteOk : Bool) : UploadResult :=
  if r.filePresent && !r.mimeOk then
    ⟨400, some "Upload failed", none, store, L⟩
  else if r.filePresent && !r.withinSize then
    ⟨413, some "File too large", none, store, L⟩
  else if !r.filePresent then
    ⟨400, some "No file uploaded", none, store, L⟩
  else
    let store1 := store ++ [r.filename]
    match r.metaRaw with
    | none => ⟨400, some "Invalid metadata", none, store1, L⟩
    | some m =>
      if !(truthyStr m.itemName && truthyStr m.timestamp && truthyNum m.durationMs) then
        ⟨400, some "Invalid metadata", none, store1, L⟩
      else if m.durationMs.getD 0 > maxDurationMs then
        ⟨400, some "Recording too long", none, store1, L⟩
      else
        ⟨201, none,
          some [("recordingId", recordingId), ("filename", r.filename),
                ("url", "/api/download/" ++ r.filename)],
          store1, writeLogEntry today L e ledgerWriteOk⟩

/-! ## Filename validation and the download / delete routes -/

/-- Does `pat` occur at the head of `l`? -/
def leadsWith : List Char → List Char → Bool
  | [], _ => true
  | _ :: _, [] => false
  | p :: ps, c :: cs => p == c && leadsWith ps cs

/-- Does `pat` occur as a contiguous sublist of `l`?  (JavaScript
`String.prototype.includes` on the underlying character lists.) -/
def containsSub (pat : List Char) : List Char → Bool
  | [] => pat.isEmpty
  | c :: cs => leadsWith pat (c :: cs) || containsSub pat cs

/-- JavaScript `s.includes(pat)`. -/
def strContains (s pat : String) : Bool := containsSub pat.data s.data

/-- The filename guard shared by the download and delete routes:
`!filename || filename.includes('..') || filename.includes('/')`. -/
def invalidFilename (f : String) : Bool :=
  f == "" || strContains f ".." || strContains f "/"

/-- Default recordings directory. -/
def recordingsDirPath : String := "./recordings"

/-- `path.join` as used with a directory and a validated filename. -/
def joinPath (dir f : String) : String := dir ++ "/" ++ f

/-- Filesystem calls a route can perform on the Recording Store. -/
inductive FsOp where
  | access (p : String)
  | openRead (p : String)
  | unlink (p : String)
  deriving DecidableEq, Repr

structure DownloadResult where
  status : Nat
  errorTag : Option String
  trace : List FsOp
  deriving DecidableEq, Repr

/-- `GET /api/download/:filename`: validate the filename, probe the file with
`fs.access` (404 when it throws), then open and stream it.  `trace` records
the filesystem calls reached, in order. -/
def downloadRoute (store : List String) (f : String) : DownloadResult :=
  if invalidFilename f then ⟨400, some "Invalid filename", []⟩
  else
    if store.contains f then
      ⟨200, none, [.access (joinPath recordingsDirPath f),
                   .openRead (joinPath recordingsDirPath f)]⟩
    else ⟨404, some "File not found", [.access (joinPath recordingsDirPath f)]⟩

structure DeleteResult where
  status : Nat
  errorTag : Option String
  store : List String
  ledger : Int → DayContent
  trace : List FsOp

/-- `DELETE /api/recordings/:filename`: validate the filename, probe with
`fs.access` (404 when it throws, without touching the ledger), else unlink
the artifact and run `removeLogEntry`. -/
def deleteRoute (today : Int) (store : List String) (L : Int → DayContent)
    (f : String) : DeleteResult :=
  if invalidFilename f then ⟨400, some "Invalid filename", store, L, []⟩
  else
    if store.contains f then
      ⟨200, none, store.erase f, removeLogEntry today f L,
        [.access (joinPath recordingsDirPath f), .unlink (joinPath recordingsDirPath f)]⟩
    else ⟨404, some "File not found", store, L, [.access (joinPath recordingsDirPath f)]⟩

/-! ## Filename Generator -/

/-- Code points matched by the JavaScript regex class `\s`. -/
def jsSpaceCodes : List Nat :=
  [9, 10, 11, 12, 13, 32, 0xa0, 0x1680, 0x2028, 0x2029, 0x202f, 0x205f, 0x3000, 0xfeff]

/-- Does the character match `\s`? -/
def isSpaceJS (c : Char) : Bool :=
  decide (c.toNat ∈ jsSpaceCodes ∨ (0x2000 ≤ c.toNat ∧ c.toNat ≤ 0x200a))

/-- Does the character match `[a-z0-9]`? -/
def isLowerAlnum (c : Char) : Bool :=
  decide ((97 ≤ c.toNat ∧ c.toNat ≤ 122) ∨ (48 ≤ c.toNat ∧ c.toNat ≤ 57))

/-- `.replace(/\s+/g, '_')`: collapse each maximal run of `\s` characters to
one underscore.  `prevSpace` records whether the previous character belonged
to a run already replaced. -/
def collapseAux (prevSpace : Bool) : List Char → List Char
  | [] => []
  | c :: rest =>
    if isSpaceJS c then
      if prevSpace then collapseAux true rest else '_' :: collapseAux true rest
    else c :: collapseAux false rest

/-- Upload middleware `createSafeFilename`: lower-case, drop every character
outside `[a-z0-9\s]`, collapse whitespace runs to `_`, truncate to 50
characters.  `Char.toLower` stands in for `String.prototype.toLowerCase`;
any character on which they disagree is dropped by the filter in both
readings. -/
def createSafeFilename (itemName : String) : String :=
  let lowered := itemName.data.map Char.toLower
  let kept := lowered.filter (fun c => isLowerAlnum c || isSpaceJS c)
  String.mk ((collapseAux false kept).take 50)

/-- `meta.itemName || 'unknown'` of `storage.filename`: a missing or empty
item name falls back to the placeholder. -/
def itemNameOf : Option String → String
  | some s => if s == "" then "unknown" else s
  | none => "unknown"

/-- `.replace(/[:.]/g, '-')` applied to one character of the ISO timestamp. -/
def replaceColonDot (c : Char) : Char := if c == ':' || c == '.' then '-' else c

/-- Upload middleware `storage.filename`: build
`survey_<safeItemName>_<timestamp>_<uuid8>.webm` from the raw
`toISOString()` output and the raw UUID string. -/
def storageFilename (rawIso uuid : String) (metaItemName : Option String) : String :=
  "survey_" ++ createSafeFilename (itemNameOf metaItemName) ++ "_"
    ++ String.mk (rawIso.data.map replaceColonDot) ++ "_"
    ++ String.mk (uuid.data.take 8) ++ ".webm"

/-- Adjacent pair of dots somewhere in the list: the character-level reading
of `..` occurring as a substring. -/
def hasAdjDots : List Char → Bool
  | [] => false
  | [_] => false
  | a :: b :: rest => (a == '.' && b == '.') || hasAdjDots (b :: rest)

/-- Characters `toISOString` can produce: digits, `-`, `T`, `:`, `.`, `Z`. -/
def isIsoChar (c : Char) : Bool :=
  (decide (48 ≤ c.toNat) && decide (c.toNat ≤ 57)) ||
    c == '-' || c == 'T' || c == ':' || c == '.' || c == 'Z'

/-- Characters a v4 UUID string can contain: lowercase hex digits and `-`. -/
def isUuidChar (c : Char) : Bool :=
  (decide (48 ≤ c.toNat) && decide (c.toNat ≤ 57)) ||
    (decide (97 ≤ c.toNat) && decide (c.toNat ≤ 102)) || c == '-'

/-! ## Concrete inputs used by witnesses and counterexamples -/

def exEntry : LogEntry :=
  ⟨"rid-1", "survey_idli_2026-10-11T00-00-00-000Z_a1b2c3d4.webm", "idli", 2500⟩

def exLedgerEmpty : Int → DayContent := fun _ => .absent

def exLedgerOne : Int → DayContent :=
  fun d => if d = 0 then .valid [exEntry] else .absent

def exLedgerBad : Int → DayContent :=
  fun d => if d = 0 then .invalid else .absent

def okMeta : UploadMeta := ⟨some "idli", some "2026-10-11T00:00:00.000Z", some 2500⟩

def okReq : UploadReq :=
  ⟨true, true, true, some okMeta, "survey_idli_2026-10-11T00-00-00-000Z_a1b2c3d4.webm"⟩

def longMeta : UploadMeta := ⟨some "idli", some "2026-10-11T00:00:00.000Z", some 40000⟩

def longReq : UploadReq :=
  ⟨true, true, true, some longMeta, "survey_idli_2026-10-11T00-00-00-000Z_a1b2c3d4.webm"⟩

/-! ## Theorems -/

/-- C2: a filename that is empty or contains the substring `..` or the
character `/` makes both the download route and the delete route answer a
400 `Invalid filename` error, and neither route reaches any filesystem call
(the traced list of filesystem operations is empty). -/
theorem invalid_filename_rejected_no_fs (today : Int) (store : List String)
    (L : Int → DayContent) (f : String)
    (h : f = "" ∨ strContains f ".." = true ∨ strContains f "/" = true) :
    downloadRoute store f = ⟨400, some "Invalid filename", []⟩ ∧
    (deleteRoute today store L f).status = 400 ∧
    (deleteRoute today store L f).errorTag = some "Invalid filename" ∧
    (deleteRoute today store L f).trace = [] := by
  have hb : invalidFilename f = true := by
    rcases h with h | h | h
    · subst h; decide
    · simp [invalidFilename, h]
    · simp [invalidFilename, h]
  refine ⟨?_, ?_, ?_, ?_⟩ <;> simp [downloadRoute, deleteRoute, hb]

/-- Witness for C2 at the traversal filename of the spec scenario. -/
theorem invalid_filename_rejected_no_fs_witness :
    downloadRoute [] "../etc/passwd" = ⟨400, some "Invalid filename", []⟩ ∧
    (deleteRoute 0 [] exLedgerEmpty "../etc/passwd").status = 400 ∧
    (deleteRoute 0 [] exLedgerEmpty "../etc/passwd").errorTag = some "Invalid filename" ∧
    (deleteRoute 0 [] exLedgerEmpty "../etc/passwd").trace = [] :=
  invalid_filename_rejected_no_fs 0 [] exLedgerEmpty "../etc/passwd"
    (Or.inr (Or.inl (by decide)))

/-- C5: deleting a safe filename whose artifact is not in the Recording
Store answers 404 `File not found`, leaves the store and every ledger
day-file unchanged, and performs only the failed existence probe (ledger
entry removal is never reached). -/
theorem delete_missing_artifact_404 (today : Int) (store : List String)
    (L : Int → DayContent) (f : String)
    (hsafe : invalidFilename f = false) (habs : store.contains f = false) :
    (deleteRoute today store L f).status = 404 ∧
    (deleteRoute today store L f).errorTag = some "File not found" ∧
    (deleteRoute today store L f).store = store ∧
    (deleteRoute today store L f).ledger = L ∧
    (deleteRoute today store L f).trace = [.access (joinPath recordingsDirPath f)] := by
  have habs2 : f ∉ store := by simpa using habs
  refine ⟨?_, ?_, ?_, ?_, ?_⟩ <;> simp [deleteRoute, hsafe, habs2]

/-- Witness for C5 at a concrete absent filename. -/
theorem delete_missing_artifact_404_witness :
    (deleteRoute 0 [] exLedgerOne "ghost.webm").status = 404 ∧
    (deleteRoute 0 [] exLedgerOne "ghost.webm").errorTag = some "File not found" ∧
    (deleteRoute 0 [] exLedgerOne "ghost.webm").store = [] ∧
    (deleteRoute 0 [] exLedgerOne "ghost.webm").ledger = exLedgerOne ∧
    (deleteRoute 0 [] exLedgerOne "ghost.webm").trace
      = [.access (joinPath recordingsDirPath "ghost.webm")] :=
  delete_missing_artifact_404 0 [] exLedgerOne "ghost.webm" (by decide) (by decide)

/-- Counterexample to C1 as stated: a request whose declared duration
(40000 ms) exceeds the 30000 ms maximum is rejected with status 400, yet
after the rejection the artifact file is in the Recording Store — the
store grew from empty to one file, because multer's disk storage engine
wrote the artifact before the duration check ran and no error path removes
it. -/
theorem upload_overDuration_artifact_persists :
    (uploadRoute 30000 longReq "rid-1" 0 [] exLedgerEmpty exEntry true).status = 400 ∧
    (uploadRoute 30000 longReq "rid-1" 0 [] exLedgerEmpty exEntry true).errorTag
      = some "Recording too long" ∧
    (uploadRoute 30000 longReq "rid-1" 0 [] exLedgerEmpty exEntry true).store
      = ["survey_idli_2026-10-11T00-00-00-000Z_a1b2c3d4.webm"] ∧
    (uploadRoute 30000 longReq "rid-1" 0 [] exLedgerEmpty exEntry true).store ≠ [] := by
  refine ⟨rfl, rfl, rfl, ?_⟩; decide

/-- C1 (amended): a request whose declared durationMs exceeds the configured
maximum is rejected with a 400 `Recording too long` error and no entry is
appended to any ledger day-file, but the artifact file written by the disk
storage engine during multipart parsing remains in the Recording Store. -/
theorem upload_overDuration_rejected (maxD : Int) (r : UploadReq) (m : UploadMeta)
    (d : Int) (rid : String) (today : Int) (store : List String)
    (L : Int → DayContent) (e : LogEntry) (wOk : Bool)
    (hmax : 0 ≤ maxD) (hf : r.filePresent = true) (hmime : r.mimeOk = true)
    (hsize : r.withinSize = true) (hmeta : r.metaRaw = some m)
    (hitem : truthyStr m.itemName = true) (htime : truthyStr m.timestamp = true)
    (hdur : m.durationMs = some d) (hgt : maxD < d) :
    (uploadRoute maxD r rid today store L e wOk).status = 400 ∧
    (uploadRoute maxD r rid today store L e wOk).errorTag = some "Recording too long" ∧
    (uploadRoute maxD r rid today store L e wOk).ledger = L ∧
    (uploadRoute maxD r rid today store L e wOk).store = store ++ [r.filename] := by
  have hd0 : d ≠ 0 := by omega
  have htn : truthyNum m.durationMs = true := by simp [truthyNum, hdur, hd0]
  have hcmp : m.durationMs.getD 0 > maxD := by rw [hdur]; simpa using hgt
  refine ⟨?_, ?_, ?_, ?_⟩ <;>
    simp [uploadRoute, hf, hmime, hsize, hmeta, hitem, htime, htn, hcmp]

/-- Witness for C1 (amended) at the 40000 ms request. -/
theorem upload_overDuration_rejected_witness :
    (uploadRoute 30000 longReq "rid-1" 0 ["a.webm"] exLedgerOne exEntry false).status = 400 ∧
    (uploadRoute 30000 longReq "rid-1" 0 ["a.webm"] exLedgerOne exEntry false).errorTag
      = some "Recording too long" ∧
    (uploadRoute 30000 longReq "rid-1" 0 ["a.webm"] exLedgerOne exEntry false).ledger
      = exLedgerOne ∧
    (uploadRoute 30000 longReq "rid-1" 0 ["a.webm"] exLedgerOne exEntry false).store
      = ["a.webm"] ++ [longReq.filename] :=
  upload_overDuration_rejected 30000 longReq longMeta 40000 "rid-1" 0 ["a.webm"]
    exLedgerOne exEntry false (by decide) rfl rfl rfl rfl (by decide) (by decide)
    rfl (by decide)

/-- C4: when the upload passed validation (so the artifact save succeeded)
and the ledger append's write fails, the upload still answers 201 and the
artifact stays in the Recording Store; the ledger is simply left unchanged. -/
theorem ledger_failure_upload_still_succeeds (maxD : Int) (r : UploadReq)
    (m : UploadMeta) (rid : String) (today : Int) (store : List String)
    (L : Int → DayContent) (e : LogEntry)
    (hf : r.filePresent = true) (hmime : r.mimeOk = true) (hsize : r.withinSize = true)
    (hmeta : r.metaRaw = some m)
    (hitem : truthyStr m.itemName = true) (htime : truthyStr m.timestamp = true)
    (htn : truthyNum m.durationMs = true)
    (hle : ¬ m.durationMs.getD 0 > maxD) :
    (uploadRoute maxD r rid today store L e false).status = 201 ∧
    (uploadRoute maxD r rid today store L e false).store = store ++ [r.filename] ∧
    (uploadRoute maxD r rid today store L e false).ledger = L := by
  refine ⟨?_, ?_, ?_⟩ <;>
    simp [uploadRoute, hf, hmime, hsize, hmeta, hitem, htime, htn, hle, writeLogEntry]

/-- Witness for C4 at the valid 2500 ms request with a failing ledger write. -/
theorem ledger_failure_upload_still_succeeds_witness :
    (uploadRoute 30000 okReq "rid-1" 0 [] exLedgerEmpty exEntry false).status = 201 ∧
    (uploadRoute 30000 okReq "rid-1" 0 [] exLedgerEmpty exEntry false).store
      = [] ++ [okReq.filename] ∧
    (uploadRoute 30000 okReq "rid-1" 0 [] exLedgerEmpty exEntry false).ledger
      = exLedgerEmpty :=
  ledger_failure_upload_still_succeeds 30000 okReq okMeta "rid-1" 0 [] exLedgerEmpty
    exEntry rfl rfl rfl rfl (by decide) (by decide) (by decide) (by decide)

/-- C3: a successful ledger append targets exactly the current day's file;
that file afterwards holds the prior sequence of entries (empty when the
file was absent, and a read error other than ENOENT does not abort the
append either) with the new entry at the end, in the original order; every
other day-file is untouched. -/
theorem writeLogEntry_appends_in_order (today : Int) (L : Int → DayContent)
    (e : LogEntry) :
    writeLogEntry today L e true today = .valid (priorEntries (L today) ++ [e])
    ∧ (∀ d, d ≠ today → writeLogEntry today L e true d = L d)
    ∧ (L today = .absent → writeLogEntry today L e true today = .valid [e])
    ∧ (L today = .ioError → writeLogEntry today L e true today = .valid [e]) := by
  refine ⟨by simp [writeLogEntry, updateAt], fun d hd => ?_, fun h => ?_, fun h => ?_⟩
  · simp [writeLogEntry, updateAt, hd]
  · simp [writeLogEntry, updateAt, h, priorEntries]
  · simp [writeLogEntry, updateAt, h, priorEntries]

/-- Witness for C3: appending to day 0 over a one-entry prior file keeps the
old entry first, and day 1 is untouched. -/
theorem writeLogEntry_appends_in_order_witness :
    writeLogEntry 0 exLedgerOne exEntry true 0
      = .valid (priorEntries (exLedgerOne 0) ++ [exEntry])
    ∧ writeLogEntry 0 exLedgerOne exEntry true 1 = exLedgerOne 1 :=
  ⟨(writeLogEntry_appends_in_order 0 exLedgerOne exEntry).1,
   (writeLogEntry_appends_in_order 0 exLedgerOne exEntry).2.1 1 (by decide)⟩

/-- Counterexample to C8 as stated: the success body's third field is named
`url`, not `downloadUrl` — the body's key list is
`recordingId, filename, url` and contains no `downloadUrl` key. -/
theorem upload_body_field_named_url :
    (((uploadRoute 30000 okReq "rid-1" 0 [] exLedgerEmpty exEntry true).body.getD []).map
        Prod.fst) = ["recordingId", "filename", "url"] ∧
    "downloadUrl" ∉
      (((uploadRoute 30000 okReq "rid-1" 0 [] exLedgerEmpty exEntry true).body.getD []).map
        Prod.fst) := by
  constructor <;> decide

/-- C8 (amended): an upload that passes validation and is stored answers
status 201 with a body holding exactly the fields `recordingId`, `filename`
and `url` (the download path for the stored filename). -/
theorem upload_success_body_fields (maxD : Int) (r : UploadReq) (m : UploadMeta)
    (rid : String) (today : Int) (store : List String) (L : Int → DayContent)
    (e : LogEntry) (wOk : Bool)
    (hf : r.filePresent = true) (hmime : r.mimeOk = true) (hsize : r.withinSize = true)
    (hmeta : r.metaRaw = some m)
    (hitem : truthyStr m.itemName = true) (htime : truthyStr m.timestamp = true)
    (htn : truthyNum m.durationMs = true)
    (hle : ¬ m.durationMs.getD 0 > maxD) :
    (uploadRoute maxD r rid today store L e wOk).status = 201 ∧
    (uploadRoute maxD r rid today store L e wOk).body
      = some [("recordingId", rid), ("filename", r.filename),
              ("url", "/api/download/" ++ r.filename)] := by
  constructor <;> simp [uploadRoute, hf, hmime, hsize, hmeta, hitem, htime, htn, hle]

/-- Witness for C8 (amended) at the valid 2500 ms request. -/
theorem upload_success_body_fields_witness :
    (uploadRoute 30000 okReq "rid-1" 0 [] exLedgerEmpty exEntry true).status = 201 ∧
    (uploadRoute 30000 okReq "rid-1" 0 [] exLedgerEmpty exEntry true).body
      = some [("recordingId", "rid-1"), ("filename", okReq.filename),
              ("url", "/api/download/" ++ okReq.filename)] :=
  upload_success_body_fields 30000 okReq okMeta "rid-1" 0 [] exLedgerEmpty exEntry
    true rfl rfl rfl rfl (by decide) (by decide) (by decide) (by decide)

/-- C9: a metadata object whose `durationMs` key is present but 0, or whose
`itemName` key is present but the empty string, fails the truthiness-based
required-field check: the request is rejected with a 400 `Invalid metadata`
error and no ledger entry is appended. -/
theorem validator_rejects_falsy_required_fields (maxD : Int) (r : UploadReq)
    (m : UploadMeta) (rid : String) (today : Int) (store : List String)
    (L : Int → DayContent) (e : LogEntry) (wOk : Bool)
    (hf : r.filePresent = true) (hmime : r.mimeOk = true) (hsize : r.withinSize = true)
    (hmeta : r.metaRaw = some m)
    (h : m.durationMs = some 0 ∨ m.itemName = some "") :
    (uploadRoute maxD r rid today store L e wOk).status = 400 ∧
    (uploadRoute maxD r rid today store L e wOk).errorTag = some "Invalid metadata" ∧
    (uploadRoute maxD r rid today store L e wOk).ledger = L := by
  have hfalse :
      (truthyStr m.itemName && truthyStr m.timestamp && truthyNum m.durationMs) = false := by
    rcases h with h | h
    · simp [truthyNum, h]
    · simp [truthyStr, h]
  refine ⟨?_, ?_, ?_⟩ <;> simp [uploadRoute, hf, hmime, hsize, hmeta, hfalse]

/-- Witness for C9 at a request declaring durationMs 0. -/
theorem validator_rejects_falsy_required_fields_witness :
    (uploadRoute 30000
        ⟨true, true, true, some ⟨some "idli", some "t", some 0⟩, "f.webm"⟩
        "rid-1" 0 [] exLedgerEmpty exEntry true).status = 400 ∧
    (uploadRoute 30000
        ⟨true, true, true, some ⟨some "idli", some "t", some 0⟩, "f.webm"⟩
        "rid-1" 0 [] exLedgerEmpty exEntry true).errorTag = some "Invalid metadata" ∧
    (uploadRoute 30000
        ⟨true, true, true, some ⟨some "idli", some "t", some 0⟩, "f.webm"⟩
        "rid-1" 0 [] exLedgerEmpty exEntry true).ledger = exLedgerEmpty :=
  validator_rejects_falsy_required_fields 30000
    ⟨true, true, true, some ⟨some "idli", some "t", some 0⟩, "f.webm"⟩
    ⟨some "idli", some "t", some 0⟩ "rid-1" 0 [] exLedgerEmpty exEntry true
    rfl rfl rfl rfl (Or.inl rfl)

/-- C10: when today's ledger file exists but `JSON.parse` throws on its
contents, an otherwise valid upload still answers 201, and the append
replaces the day-file with an array holding only the new entry — every
previously recorded entry of that day is discarded. -/
theorem invalid_ledger_replaced_upload_succeeds (maxD : Int) (r : UploadReq)
    (m : UploadMeta) (rid : String) (today : Int) (store : List String)
    (L : Int → DayContent) (e : LogEntry)
    (hf : r.filePresent = true) (hmime : r.mimeOk = true) (hsize : r.withinSize = true)
    (hmeta : r.metaRaw = some m)
    (hitem : truthyStr m.itemName = true) (htime : truthyStr m.timestamp = true)
    (htn : truthyNum m.durationMs = true)
    (hle : ¬ m.durationMs.getD 0 > maxD)
    (hinv : L today = .invalid) :
    (uploadRoute maxD r rid today store L e true).status = 201 ∧
    (uploadRoute maxD r rid today store L e true).ledger today = .valid [e] := by
  constructor <;>
    simp [uploadRoute, hf, hmime, hsize, hmeta, hitem, htime, htn, hle,
      writeLogEntry, updateAt, hinv, priorEntries]

/-- Witness for C10 over a day-file with unparseable contents. -/
theorem invalid_ledger_replaced_upload_succeeds_witness :
    (uploadRoute 30000 okReq "rid-1" 0 [] exLedgerBad exEntry true).status = 201 ∧
    (uploadRoute 30000 okReq "rid-1" 0 [] exLedgerBad exEntry true).ledger 0
      = .valid [exEntry] :=
  invalid_ledger_replaced_upload_succeeds 30000 okReq okMeta "rid-1" 0 [] exLedgerBad
    exEntry rfl rfl rfl rfl (by decide) (by decide) (by decide) (by decide) (by decide)

/-- The loop's rewrite condition (`filteredLogs.length !== logs.length`)
holds exactly when some entry of the file matches the filename. -/
theorem filterOut_length_ne_iff (fn : String) (l : List LogEntry) :
    ((filterOut fn l).length ≠ l.length) ↔ l.any (matchesFilename fn) = true := by
  constructor
  · intro h
    by_contra hany
    apply h
    have hall : ∀ e ∈ l, (!(matchesFilename fn e)) = true := by
      intro e he
      cases hme : matchesFilename fn e with
      | false => rfl
      | true => exact absurd (List.any_eq_true.mpr ⟨e, he, hme⟩) hany
    rw [filterOut, List.filter_eq_self.mpr hall]
  · intro h
    rcases List.any_eq_true.mp h with ⟨e, he, hm⟩
    exact Nat.ne_of_lt
      (List.length_filter_lt_length_iff_exists.mpr ⟨e, he, by simp [hm]⟩)

/-- Characterization of the `removeLogEntry` loop over any offset list: the
result is unchanged when no listed day-file has a matching entry, and
otherwise it is a single rewrite of the first listed day-file with a match,
holding that file's entries with the matching ones filtered out. -/
theorem removeGo_eq (today : Int) (fn : String) (offsets : List Nat)
    (L : Int → DayContent) :
    removeGo today fn offsets L =
      match offsets.find? (fun (i : Nat) => hasMatch fn (L (today - (i : Int)))) with
      | none => L
      | some i => updateAt L (today - (i : Int))
          (.valid (filterOut fn (priorEntries (L (today - (i : Int)))))) := by
  induction offsets with
  | nil => rfl
  | cons i rest ih =>
    simp only [removeGo]
    cases hL : L (today - (i : Int)) with
    | valid entries =>
      dsimp only
      by_cases hlen : (filterOut fn entries).length ≠ entries.length
      · rw [if_pos hlen]
        have hm : (fun (j : Nat) => hasMatch fn (L (today - (j : Int)))) i = true := by
          simp only [hL, hasMatch]
          exact (filterOut_length_ne_iff fn entries).mp hlen
        have hfind :
            (i :: rest).find? (fun (j : Nat) => hasMatch fn (L (today - (j : Int))))
              = some i := List.find?_cons_of_pos _ hm
        rw [hfind]
        dsimp only
        rw [hL]
        rfl
      · rw [if_neg hlen]
        have hm : ¬ (fun (j : Nat) => hasMatch fn (L (today - (j : Int)))) i = true := by
          simp only [hL, hasMatch]
          exact fun h => hlen ((filterOut_length_ne_iff fn entries).mpr h)
        have hfind :
            (i :: rest).find? (fun (j : Nat) => hasMatch fn (L (today - (j : Int))))
              = rest.find? (fun (j : Nat) => hasMatch fn (L (today - (j : Int))))
              := List.find?_cons_of_neg _ hm
        rw [hfind]
        exact ih
    | absent =>
      dsimp only
      have hfind :
          (i :: rest).find? (fun (j : Nat) => hasMatch fn (L (today - (j : Int))))
            = rest.find? (fun (j : Nat) => hasMatch fn (L (today - (j : Int))))
            := List.find?_cons_of_neg _ (by simp [hL, hasMatch])
      rw [hfind]
      exact ih
    | ioError =>
      dsimp only
      have hfind :
          (i :: rest).find? (fun (j : Nat) => hasMatch fn (L (today - (j : Int))))
            = rest.find? (fun (j : Nat) => hasMatch fn (L (today - (j : Int))))
            := List.find?_cons_of_neg _ (by simp [hL, hasMatch])
      rw [hfind]
      exact ih
    | invalid =>
      dsimp only
      have hfind :
          (i :: rest).find? (fun (j : Nat) => hasMatch fn (L (today - (j : Int))))
            = rest.find? (fun (j : Nat) => hasMatch fn (L (today - (j : Int))))
            := List.find?_cons_of_neg _ (by simp [hL, hasMatch])
      rw [hfind]
      exact ih

/-- C6: `removeLogEntry` examines at most the day-files of today and the six
preceding days, in that order.  When none of them contains an entry whose
filename matches, every day-file is left unchanged.  When one does, the
first such day-file (smallest offset, hence most recent) is rewritten with
the matching entries filtered out and the search stops there: the result is
a single-point update, so every other day-file — older ones, later ones in
the window, and everything outside the window — keeps its contents. -/
theorem removeLogEntry_bounded_window_first_match (today : Int) (fn : String)
    (L : Int → DayContent) :
    ((List.range 7).find? (fun (i : Nat) => hasMatch fn (L (today - (i : Int)))) = none →
        removeLogEntry today fn L = L)
    ∧ (∀ i : Nat,
        (List.range 7).find? (fun (i : Nat) => hasMatch fn (L (today - (i : Int)))) = some i →
        i < 7 ∧
          removeLogEntry today fn L
            = updateAt L (today - (i : Int))
                (.valid (filterOut fn (priorEntries (L (today - (i : Int)))))))
    ∧ (∀ d : Int, (∀ i : Nat, i < 7 → d ≠ today - (i : Int)) →
        removeLogEntry today fn L d = L d) := by
  have h := removeGo_eq today fn (List.range 7) L
  refine ⟨?_, ?_, ?_⟩
  · intro hnone
    rw [removeLogEntry, h, hnone]
  · intro i hsome
    refine ⟨by simpa using List.mem_of_find?_eq_some hsome, ?_⟩
    rw [removeLogEntry, h, hsome]
  · intro d hd
    rw [removeLogEntry, h]
    cases hfind :
        (List.range 7).find? (fun (i : Nat) => hasMatch fn (L (today - (i : Int)))) with
    | none => rfl
    | some i =>
      have hi : i < 7 := by simpa using List.mem_of_find?_eq_some hfind
      dsimp only
      simp only [updateAt]
      rw [if_neg (hd i hi)]

/-- Witness for C6: with a single matching entry in today's file, the result
is exactly the rewrite of that file with the entry filtered out. -/
theorem removeLogEntry_bounded_window_first_match_witness :
    removeLogEntry 0 "survey_idli_2026-10-11T00-00-00-000Z_a1b2c3d4.webm" exLedgerOne
      = updateAt exLedgerOne (0 - ((0 : Nat) : Int))
          (.valid (filterOut "survey_idli_2026-10-11T00-00-00-000Z_a1b2c3d4.webm"
            (priorEntries (exLedgerOne (0 - ((0 : Nat) : Int)))))) :=
  ((removeLogEntry_bounded_window_first_match 0
      "survey_idli_2026-10-11T00-00-00-000Z_a1b2c3d4.webm" exLedgerOne).2.1 0
    (by decide)).2

/-- Every character emitted by the whitespace-collapsing pass is either the
underscore separator or a non-whitespace character of the input. -/
theorem collapseAux_chars :
    ∀ (l : List Char) (b : Bool) (c : Char), c ∈ collapseAux b l →
      c = '_' ∨ (c ∈ l ∧ isSpaceJS c = false) := by
  intro l
  induction l with
  | nil => intro b c hc; simp [collapseAux] at hc
  | cons a rest ih =>
    intro b c hc
    by_cases ha : isSpaceJS a = true
    · rw [collapseAux, if_pos ha] at hc
      cases b with
      | true =>
        rcases ih true c (by simpa using hc) with h | ⟨h1, h2⟩
        · exact Or.inl h
        · exact Or.inr ⟨List.mem_cons_of_mem a h1, h2⟩
      | false =>
        rcases List.mem_cons.mp (by simpa using hc) with h | h
        · exact Or.inl h
        · rcases ih true c h with h2 | ⟨h3, h4⟩
          · exact Or.inl h2
          · exact Or.inr ⟨List.mem_cons_of_mem a h3, h4⟩
    · rw [collapseAux, if_neg ha] at hc
      rcases List.mem_cons.mp hc with h | h
      · refine Or.inr ⟨?_, ?_⟩
        · rw [h]; exact List.mem_cons_self _ _
        · rw [h]; simpa using ha
      · rcases ih false c h with h2 | ⟨h3, h4⟩
        · exact Or.inl h2
        · exact Or.inr ⟨List.mem_cons_of_mem a h3, h4⟩

/-- Every character of a generated safe item name is a lowercase ASCII
letter, a digit, or the underscore separator. -/
theorem createSafeFilename_chars (x : String) :
    ∀ c ∈ (createSafeFilename x).data, isLowerAlnum c = true ∨ c = '_' := by
  intro c hc
  simp only [createSafeFilename] at hc
  have hc2 := List.mem_of_mem_take hc
  rcases collapseAux_chars _ false c hc2 with h | ⟨h1, h2⟩
  · exact Or.inr h
  · left
    have hp := (List.mem_filter.mp h1).2
    simpa [h2] using hp

/-- The safe item-name portion is at most 50 characters long. -/
theorem createSafeFilename_length (x : String) :
    (createSafeFilename x).data.length ≤ 50 := by
  simp only [createSafeFilename]
  exact List.length_take_le _ _

/-- A character whose code point is a digit, a lowercase letter, or one of
`_ - T Z` is not a slash, not JavaScript whitespace, and not a dot. -/
theorem segChar_of_toNat (c : Char)
    (h : (48 ≤ c.toNat ∧ c.toNat ≤ 57) ∨ (97 ≤ c.toNat ∧ c.toNat ≤ 122) ∨
        c.toNat = 95 ∨ c.toNat = 45 ∨ c.toNat = 84 ∨ c.toNat = 90) :
    c ≠ '/' ∧ isSpaceJS c = false ∧ c ≠ '.' := by
  refine ⟨?_, ?_, ?_⟩
  · intro he; subst he; revert h; decide
  · simp only [isSpaceJS, jsSpaceCodes, decide_eq_false_iff_not]
    intro hmem
    rcases hmem with hmem | hmem
    · simp only [List.mem_cons, List.not_mem_nil, or_false] at hmem
      omega
    · omega
  · intro he; subst he; revert h; decide

/-- Characters of the safe item-name portion are not slashes, whitespace or
dots. -/
theorem segChar_safe (x : String) (c : Char)
    (hc : c ∈ (createSafeFilename x).data) :
    c ≠ '/' ∧ isSpaceJS c = false ∧ c ≠ '.' := by
  rcases createSafeFilename_chars x c hc with h | h
  · apply segChar_of_toNat
    simp only [isLowerAlnum, decide_eq_true_eq] at h
    tauto
  · subst h; exact ⟨by decide, by decide, by decide⟩

/-- After the `[:.] → -` replacement, a character of the ISO timestamp is
not a slash, whitespace or dot. -/
theorem segChar_isoMapped (c0 : Char) (h : isIsoChar c0 = true) :
    replaceColonDot c0 ≠ '/' ∧ isSpaceJS (replaceColonDot c0) = false ∧
      replaceColonDot c0 ≠ '.' := by
  unfold replaceColonDot
  by_cases hcd : (c0 == ':' || c0 == '.') = true
  · rw [if_pos hcd]; exact ⟨by decide, by decide, by decide⟩
  · rw [if_neg hcd]
    apply segChar_of_toNat
    simp only [isIsoChar, Bool.or_eq_true, Bool.and_eq_true, decide_eq_true_eq,
      beq_iff_eq, or_assoc] at h
    simp only [Bool.or_eq_true, beq_iff_eq, not_or] at hcd
    rcases h with h | h | h | h | h | h
    · left; exact h
    · subst h; decide
    · subst h; decide
    · exact absurd h hcd.1
    · exact absurd h hcd.2
    · subst h; decide

/-- A UUID character is not a slash, whitespace or dot. -/
theorem segChar_uuid (c : Char) (h : isUuidChar c = true) :
    c ≠ '/' ∧ isSpaceJS c = false ∧ c ≠ '.' := by
  apply segChar_of_toNat
  simp only [isUuidChar, Bool.or_eq_true, Bool.and_eq_true, decide_eq_true_eq,
    beq_iff_eq, or_assoc] at h
  rcases h with ⟨h1, h2⟩ | ⟨h1, h2⟩ | h
  · left; exact ⟨h1, h2⟩
  · right; left; omega
  · subst h; decide

/-- The character list of a generated filename, split at the concatenation
boundaries of `storage.filename`. -/
theorem storageFilename_data (rawIso uuid : String) (item : Option String) :
    (storageFilename rawIso uuid item).data
      = "survey_".data ++ ((createSafeFilename (itemNameOf item)).data
          ++ ("_".data ++ ((rawIso.data.map replaceColonDot)
          ++ ("_".data ++ ((uuid.data.take 8) ++ ".webm".data))))) := by
  simp [storageFilename, String.data_append]

/-- No character of a generated filename is a slash or JavaScript
whitespace. -/
theorem storageFilename_no_slash_no_space (rawIso uuid : String)
    (item : Option String)
    (hiso : ∀ c ∈ rawIso.data, isIsoChar c = true)
    (huuid : ∀ c ∈ uuid.data, isUuidChar c = true) :
    ∀ c ∈ (storageFilename rawIso uuid item).data,
      c ≠ '/' ∧ isSpaceJS c = false := by
  have hsurvey : ∀ c ∈ "survey_".data, c ≠ '/' ∧ isSpaceJS c = false := by decide
  have hsep : ∀ c ∈ "_".data, c ≠ '/' ∧ isSpaceJS c = false := by decide
  have hwebm : ∀ c ∈ ".webm".data, c ≠ '/' ∧ isSpaceJS c = false := by decide
  intro c hc
  rw [storageFilename_data] at hc
  simp only [List.mem_append] at hc
  rcases hc with h | h | h | h | h | h | h
  · exact hsurvey c h
  · exact ⟨(segChar_safe _ c h).1, (segChar_safe _ c h).2.1⟩
  · exact hsep c h
  · rcases List.mem_map.mp h with ⟨c0, hc0, heq⟩
    rw [← heq]
    exact ⟨(segChar_isoMapped c0 (hiso c0 hc0)).1, (segChar_isoMapped c0 (hiso c0 hc0)).2.1⟩
  · exact hsep c h
  · exact ⟨(segChar_uuid c (huuid c (List.mem_of_mem_take h))).1,
      (segChar_uuid c (huuid c (List.mem_of_mem_take h))).2.1⟩
  · exact hwebm c h

/-- A generated filename contains exactly one dot: the one of the `.webm`
extension. -/
theorem storageFilename_dotCount (rawIso uuid : String) (item : Option String)
    (hiso : ∀ c ∈ rawIso.data, isIsoChar c = true)
    (huuid : ∀ c ∈ uuid.data, isUuidChar c = true) :
    ((storageFilename rawIso uuid item).data.count '.') = 1 := by
  rw [storageFilename_data]
  simp only [List.count_append]
  have h1 : "survey_".data.count '.' = 0 := by decide
  have h2 : ((createSafeFilename (itemNameOf item)).data.count '.') = 0 :=
    List.count_eq_zero.mpr (fun hmem => (segChar_safe _ _ hmem).2.2 rfl)
  have h3 : ("_").data.count '.' = 0 := by decide
  have h4 : ((rawIso.data.map replaceColonDot).count '.') = 0 :=
    List.count_eq_zero.mpr (by
      intro hmem
      rcases List.mem_map.mp hmem with ⟨c0, hc0, heq⟩
      exact (segChar_isoMapped c0 (hiso c0 hc0)).2.2 heq)
  have h5 : ((uuid.data.take 8).count '.') = 0 :=
    List.count_eq_zero.mpr (by
      intro hmem
      exact (segChar_uuid _ (huuid _ (List.mem_of_mem_take hmem))).2.2 rfl)
  have h6 : ".webm".data.count '.' = 1 := by decide
  simp only [h1, h2, h3, h4, h5, h6]

/-- A character list with at most one dot has no two adjacent dots. -/
theorem hasAdjDots_eq_false_of_count_le_one (l : List Char)
    (h : l.count '.' ≤ 1) : hasAdjDots l = false := by
  induction l with
  | nil => rfl
  | cons a rest ih =>
    cases rest with
    | nil => rfl
    | cons b rest2 =>
      have htail : ((b :: rest2).count '.') ≤ 1 := by
        by_cases ha : a = '.'
        · subst ha
          simp only [List.count_cons_self] at h
          omega
        · rw [List.count_cons_of_ne (Ne.symm ha)] at h
          exact h
      by_cases hb : b = '.'
      · by_cases ha : a = '.'
        · exfalso
          subst ha; subst hb
          simp only [List.count_cons_self] at h
          omega
        · have h1 : (a == '.') = false := by simp [ha]
          simp [hasAdjDots, h1, ih htail]
      · have h1 : (b == '.') = false := by simp [hb]
        simp [hasAdjDots, h1, ih htail]

/-- C7: for every item name, the generated filename is literally
`survey_` ++ safeItemName ++ `_` ++ timestamp ++ `_` ++ shortUuid ++ `.webm`;
the safe item-name portion consists only of lowercase ASCII alphanumerics
and the underscore separator and is at most 50 characters long; the whole
filename contains no `/`, no whitespace, and no two adjacent dots (so no
`..`); and a missing or empty item name yields the literal placeholder
`unknown` as the item-name portion. -/
theorem storageFilename_safe (rawIso uuid : String) (item : Option String)
    (hiso : ∀ c ∈ rawIso.data, isIsoChar c = true)
    (huuid : ∀ c ∈ uuid.data, isUuidChar c = true) :
    storageFilename rawIso uuid item
      = "survey_" ++ createSafeFilename (itemNameOf item) ++ "_"
        ++ String.mk (rawIso.data.map replaceColonDot) ++ "_"
        ++ String.mk (uuid.data.take 8) ++ ".webm"
    ∧ (∀ c ∈ (createSafeFilename (itemNameOf item)).data,
        isLowerAlnum c = true ∨ c = '_')
    ∧ (createSafeFilename (itemNameOf item)).data.length ≤ 50
    ∧ '/' ∉ (storageFilename rawIso uuid item).data
    ∧ (∀ c ∈ (storageFilename rawIso uuid item).data, isSpaceJS c = false)
    ∧ hasAdjDots (storageFilename rawIso uuid item).data = false
    ∧ (item = none ∨ item = some "" →
        createSafeFilename (itemNameOf item) = "unknown") := by
  refine ⟨rfl, createSafeFilename_chars _, createSafeFilename_length _, ?_, ?_, ?_, ?_⟩
  · intro hmem
    exact (storageFilename_no_slash_no_space rawIso uuid item hiso huuid _ hmem).1 rfl
  · intro c hc
    exact (storageFilename_no_slash_no_space rawIso uuid item hiso huuid c hc).2
  · exact hasAdjDots_eq_false_of_count_le_one _
      (storageFilename_dotCount rawIso uuid item hiso huuid).le
  · rintro (h | h) <;> subst h <;> decide

/-- Witness for C7 at a concrete item name, timestamp and UUID. -/
theorem storageFilename_safe_witness :
    '/' ∉ (storageFilename "2026-10-11T00:00:00.000Z"
        "a1b2c3d4-e5f6-4a90-bc12-3456789abcde" (some "Masala Dosa!")).data ∧
    hasAdjDots (storageFilename "2026-10-11T00:00:00.000Z"
        "a1b2c3d4-e5f6-4a90-bc12-3456789abcde" (some "Masala Dosa!")).data = false :=
  ⟨(storageFilename_safe "2026-10-11T00:00:00.000Z"
      "a1b2c3d4-e5f6-4a90-bc12-3456789abcde" (some "Masala Dosa!")
      (by decide) (by decide)).2.2.2.1,
   (storageFilename_safe "2026-10-11T00:00:00.000Z"
      "a1b2c3d4-e5f6-4a90-bc12-3456789abcde" (some "Masala Dosa!")
      (by decide) (by decide)).2.2.2.2.2.1⟩
